import Mathlib

/-!
Verification of the AutoSomnia Account & Exchange Transaction Engine.

This file gives a shallow embedding, in Lean 4, of the core parts of
`app/services/account_service.py`, `app/services/somnia_exchange_service.py`,
`app/models/account_models.py` and the transaction endpoints of
`app/api/routes/*.py`, together with theorems settling the frozen claims
about them.

Modelling conventions:
* Python `Decimal` arithmetic is modelled by exact rationals (`ℚ`); the
  operations proved about stay far below `Decimal`'s 28-significant-digit
  context, where `Decimal` is exact.
* Python `int(...)` applied to a `Decimal` truncates toward zero and is
  modelled by truncated integer division of the rational.
* The JSON-RPC node is an oracle (`Chain`); every embedded operation
  returns its result together with the ordered list of RPC calls it made,
  so "before any network call" claims are statements about that list.
* `eth_account.Account.from_key` (secp256k1 key-to-address derivation) is
  a parameter `ka : String → Option String` of each operation that uses
  it; `none` models the exception raised on an invalid key.
* `Web3.to_checksum_address` is modelled by a full executable EIP-55
  implementation, including Keccak-256, so checksum outputs are computed
  concretely.
-/

set_option maxRecDepth 100000

namespace AutoSomnia

deriving instance DecidableEq for Except

attribute [local semireducible] Rat.mul Rat.add Rat.sub Rat.inv

/-! ## ASCII character utilities

Models of Python's `str.lower` / `str.upper` restricted to ASCII letters
(every address and amount string the engine accepts is ASCII, being
hex-validated or compared against the ASCII literal MAX). -/

/-- ASCII lower-casing of one character, as Python's `str.lower` acts on
ASCII input. -/
def lowerAscii (c : Char) : Char :=
  match c with
  | 'A' => 'a' | 'B' => 'b' | 'C' => 'c' | 'D' => 'd' | 'E' => 'e'
  | 'F' => 'f' | 'G' => 'g' | 'H' => 'h' | 'I' => 'i' | 'J' => 'j'
  | 'K' => 'k' | 'L' => 'l' | 'M' => 'm' | 'N' => 'n' | 'O' => 'o'
  | 'P' => 'p' | 'Q' => 'q' | 'R' => 'r' | 'S' => 's' | 'T' => 't'
  | 'U' => 'u' | 'V' => 'v' | 'W' => 'w' | 'X' => 'x' | 'Y' => 'y'
  | 'Z' => 'z'
  | c => c

/-- ASCII upper-casing of one character, as Python's `str.upper` acts on
ASCII input. -/
def upperAscii (c : Char) : Char :=
  match c with
  | 'a' => 'A' | 'b' => 'B' | 'c' => 'C' | 'd' => 'D' | 'e' => 'E'
  | 'f' => 'F' | 'g' => 'G' | 'h' => 'H' | 'i' => 'I' | 'j' => 'J'
  | 'k' => 'K' | 'l' => 'L' | 'm' => 'M' | 'n' => 'N' | 'o' => 'O'
  | 'p' => 'P' | 'q' => 'Q' | 'r' => 'R' | 's' => 'S' | 't' => 'T'
  | 'u' => 'U' | 'v' => 'V' | 'w' => 'W' | 'x' => 'X' | 'y' => 'Y'
  | 'z' => 'Z'
  | c => c

/-- Model of Python `s.lower()` on an ASCII string. -/
def strLower (s : String) : String := String.mk (s.data.map lowerAscii)

/-- Model of Python `s.upper()` on an ASCII string. -/
def strUpper (s : String) : String := String.mk (s.data.map upperAscii)

/-- Value of a hexadecimal digit character, `none` for a non-hex
character.  Mirrors the `[0-9a-fA-F]` character classes used throughout
the Python source. -/
def hexVal (c : Char) : Option Nat :=
  if 65 ≤ c.toNat ∧ c.toNat ≤ 70 then some (c.toNat - 55)
  else if 97 ≤ c.toNat ∧ c.toNat ≤ 102 then some (c.toNat - 87)
  else if 48 ≤ c.toNat ∧ c.toNat ≤ 57 then some (c.toNat - 48)
  else none

/-- Whether a character is a hex digit. -/
def isHexChar (c : Char) : Bool := (hexVal c).isSome

/-- Lower-case hex digit character of a nibble value. -/
def nibbleCharLower (n : Nat) : Char := "0123456789abcdef".data.getD (n % 16) '0'

/-- Upper-case hex digit character of a nibble value (digits map to
themselves). -/
def nibbleCharUpper (n : Nat) : Char := "0123456789ABCDEF".data.getD (n % 16) '0'

/-! ## Keccak-256

Executable model of the hash used by `Web3.to_checksum_address`
(original Keccak with the `0x01` domain padding, not NIST SHA-3).  The
state is a flat list of 25 lanes, each a natural number below `2 ^ 64`,
indexed by `x + 5 * y`.  Only single-block inputs (at most 135 bytes)
are needed: EIP-55 hashes a 40-byte string. -/

/-- Left-rotation of a 64-bit lane. -/
def rotl64 (x n : Nat) : Nat := ((x <<< n) % (2 ^ 64)) ||| (x >>> (64 - n))

/-- The 24 Keccak round constants. -/
def keccakRC : List Nat :=
  [0x0000000000000001, 0x0000000000008082, 0x800000000000808a,
   0x8000000080008000, 0x000000000000808b, 0x0000000080000001,
   0x8000000080008081, 0x8000000000008009, 0x000000000000008a,
   0x0000000000000088, 0x0000000080008009, 0x000000008000000a,
   0x000000008000808b, 0x800000000000008b, 0x8000000000008089,
   0x8000000000008003, 0x8000000000008002, 0x8000000000000080,
   0x000000000000800a, 0x800000008000000a, 0x8000000080008081,
   0x8000000000008080, 0x0000000080000001, 0x8000000080008008]

/-- Combined rho/pi permutation table: entry `t` holds the source lane
index and rotation amount whose rotated value lands in target lane `t`. -/
def rhoPiTable : List (Nat × Nat) :=
  [(0, 0), (6, 44), (12, 43), (18, 21), (24, 14),
   (3, 28), (9, 20), (10, 3), (16, 45), (22, 61),
   (1, 1), (7, 6), (13, 25), (19, 8), (20, 18),
   (4, 27), (5, 36), (11, 10), (17, 15), (23, 56),
   (2, 62), (8, 55), (14, 39), (15, 41), (21, 2)]

/-- Theta step of the Keccak round function. -/
def kTheta (A : List Nat) : List Nat :=
  let Cs := (List.range 5).map fun x =>
    (A.getD x 0) ^^^ (A.getD (x + 5) 0) ^^^ (A.getD (x + 10) 0) ^^^
    (A.getD (x + 15) 0) ^^^ (A.getD (x + 20) 0)
  let Ds := (List.range 5).map fun x =>
    (Cs.getD ((x + 4) % 5) 0) ^^^ rotl64 (Cs.getD ((x + 1) % 5) 0) 1
  (List.range 25).map fun i => (A.getD i 0) ^^^ (Ds.getD (i % 5) 0)

/-- Rho and pi steps of the Keccak round function. -/
def kRhoPi (A : List Nat) : List Nat :=
  rhoPiTable.map fun sr => rotl64 (A.getD sr.1 0) sr.2

/-- Chi step of the Keccak round function. -/
def kChi (B : List Nat) : List Nat :=
  (List.range 25).map fun i =>
    let x := i % 5
    let y := i / 5
    (B.getD i 0) ^^^
      (((B.getD (5 * y + (x + 1) % 5) 0) ^^^ (2 ^ 64 - 1)) &&&
        (B.getD (5 * y + (x + 2) % 5) 0))

/-- One Keccak round: theta, rho/pi, chi, then iota with round constant
`rc`. -/
def keccakRound (A : List Nat) (rc : Nat) : List Nat :=
  match kChi (kRhoPi (kTheta A)) with
  | [] => []
  | a0 :: rest => (a0 ^^^ rc) :: rest

/-- The full Keccak-f[1600] permutation (24 rounds). -/
def keccakF (A : List Nat) : List Nat := keccakRC.foldl keccakRound A

/-- Multi-rate padding of a message of at most 135 bytes into one
136-byte block, with the legacy Keccak `0x01` domain byte. -/
def padKeccak (msg : List Nat) : List Nat :=
  if msg.length = 135 then msg ++ [0x81]
  else msg ++ [0x01] ++ List.replicate (134 - msg.length) 0 ++ [0x80]

/-- Little-endian interpretation of up to eight bytes as one 64-bit
lane. -/
def bytesToLane (bs : List Nat) : Nat := bs.foldr (fun b acc => acc * 256 + b) 0

/-- The 17 rate lanes of a 136-byte block. -/
def blockLanes (bs : List Nat) : List Nat :=
  (List.range 17).map fun j => bytesToLane ((bs.drop (8 * j)).take 8)

/-- Keccak-256 of a message of at most 135 bytes (a single sponge
block), returned as 32 bytes.  This covers every use in the engine:
EIP-55 hashes exactly 40 bytes. -/
def keccak256 (msg : List Nat) : List Nat :=
  let st := keccakF (blockLanes (padKeccak msg) ++ List.replicate 8 0)
  (List.range 32).map fun k => ((st.getD (k / 8) 0) >>> (8 * (k % 8))) % 256

/-- ASCII byte sequence of a string. -/
def strBytes (s : String) : List Nat := s.data.map Char.toNat

/-- Render 32 hash bytes as lower-case hex, for the test vectors
below. -/
def bytesToHex (bs : List Nat) : String :=
  String.mk ((bs.map fun b => [nibbleCharLower (b / 16), nibbleCharLower b]).flatten)

/-! ## EIP-55 checksum addresses

Model of `Web3.to_checksum_address` (`eth_utils.to_checksum_address`):
the input must be a 0x-prefixed 40-hex-digit string (any letter case);
it is lower-cased, the Keccak-256 hash of the 40 lower-case ASCII hex
characters is taken, and hex letter `i` of the output is upper-cased
exactly when nibble `i` of the hash is at least 8. -/

/-- Hex values of a character list; `none` if any character is not a
hex digit. -/
def hexList : List Char → Option (List Nat)
  | [] => some []
  | c :: cs =>
    match hexVal c, hexList cs with
    | some n, some ns => some (n :: ns)
    | _, _ => none

/-- Character-list form of the address parser below. -/
def parseHexAddrList : List Char → Option (List Nat)
  | c0 :: c1 :: rest =>
    if c0 = '0' ∧ (c1 = 'x' ∨ c1 = 'X') ∧ rest.length = 40 then
      hexList rest
    else none
  | _ => none

/-- Parse a 0x-prefixed 40-hex-digit address into its nibble values;
`none` on any malformed input (this is the `is_address` validation of
`eth_utils`, which raises inside `to_checksum_address`). -/
def parseHexAddr (s : String) : Option (List Nat) :=
  parseHexAddrList s.data

/-- Nibble `i` (big-endian within each byte) of a 32-byte hash. -/
def hashNibble (h : List Nat) (i : Nat) : Nat :=
  if i % 2 = 0 then (h.getD (i / 2) 0) / 16 else (h.getD (i / 2) 0) % 16

/-- Case-selection loop of the EIP-55 encoding: nibble at position `i`
is rendered upper-case when hash nibble `i` is at least 8. -/
def checksumGo (h : List Nat) : Nat → List Nat → List Char
  | _, [] => []
  | i, n :: ns =>
    (if 8 ≤ hashNibble h i then nibbleCharUpper n else nibbleCharLower n) ::
      checksumGo h (i + 1) ns

/-- EIP-55 encoding of a 40-nibble address body. -/
def checksumChars (nibs : List Nat) : List Char :=
  checksumGo (keccak256 ((nibs.map nibbleCharLower).map Char.toNat)) 0 nibs

/-- Model of `Web3.to_checksum_address`: `none` exactly when the Python
call raises. -/
def toChecksumAddress (s : String) : Option String :=
  (parseHexAddr s).map fun nibs => String.mk ('0' :: 'x' :: checksumChars nibs)

/-- An address string already in EIP-55 checksum form. -/
def isChecksummed (s : String) : Prop := toChecksumAddress s = some s

instance (s : String) : Decidable (isChecksummed s) := by
  unfold isChecksummed; infer_instance

/-! ## Error taxonomy and RPC trace model -/

/-- The failure modes of the embedded operations.  Each constructor
corresponds to one raise-site family of the Python source (all are
`ValueError`/`HTTPException`/pydantic `ValidationError` at runtime; the
spec names them as listed in its section 7). -/
inductive Err where
  /-- An address failed validation (`Invalid Ethereum address` /
  `Invalid address length` / invalid hex). -/
  | invalidAddress
  /-- A private key failed validation (`Account.from_key` raised, or
  `_validate_private_key` rejected it). -/
  | invalidKey
  /-- A swap path with fewer than two addresses (`Invalid swap path`). -/
  | invalidSwapPath
  /-- `Insufficient balance` / `Insufficient token balance`. -/
  | insufficientBalance
  /-- `Insufficient balance for gas fees` / `Insufficient ETH for gas
  fees`. -/
  | insufficientFundsForGas
  /-- A read-only token contract call raised (`TokenQueryFailed`). -/
  | tokenQueryFailed
  /-- A pydantic model validator rejected a field value. -/
  | validationError
  /-- Python `AttributeError`: an attribute looked up on an object that
  does not define it. -/
  | attributeError
  /-- `eth_account` failed to sign with the supplied key. -/
  | signError
  /-- The RLP serializer inside `sign_transaction` rejected a field
  value (`rlp.exceptions.SerializationError: Cannot serialize negative
  integers`). -/
  | serializationError
  /-- `Decimal(...)` could not parse an amount string. -/
  | badDecimal
  deriving DecidableEq, Repr

/-- A transaction's call payload, as far as the embedded operations
distinguish it. -/
inductive TxData where
  /-- Plain native transfer: no calldata. -/
  | plain
  /-- ERC-20 `transfer(to, amount)` calldata. -/
  | transfer (toAddr : String) (amount : Int)
  /-- ERC-20 `approve(spender, amount)` calldata. -/
  | approve (spender : String) (amount : Int)
  /-- Router `swapExactTokensForTokens` calldata. -/
  | swapExactTokensForTokens (amountIn amountOutMin : Int) (path : List String)
      (toAddr : String) (deadline : Int)
  /-- Router `swapExactETHForTokens` calldata. -/
  | swapExactETHForTokens (amountOutMin : Int) (path : List String)
      (toAddr : String) (deadline : Int)
  /-- Router `swapExactTokensForETH` calldata. -/
  | swapExactTokensForETH (amountIn amountOutMin : Int) (path : List String)
      (toAddr : String) (deadline : Int)
  deriving DecidableEq, Repr

/-- A built (and, when broadcast, signed) transaction. -/
structure Tx where
  toAddr : String
  value : Int
  gas : Nat
  gasPrice : Nat
  nonce : Nat
  chainId : Int
  callData : TxData
  deriving DecidableEq, Repr

/-- One JSON-RPC round-trip, in the order the source issues them.  The
hidden chain-id fill that `web3` may perform inside
`build_transaction` is not modelled; only the calls visible in the
source appear. -/
inductive Rpc where
  | getBalance (addr : String)
  | getNonce (addr : String)
  | gasPrice
  | getCode (addr : String)
  | callBalanceOf (token owner : String)
  | callDecimals (token : String)
  | callSymbol (token : String)
  | callName (token : String)
  | getBlock
  | sendRaw (tx : Tx)
  | waitReceipt
  deriving DecidableEq, Repr

/-- The remote node, as a static oracle: balances, nonces, gas price and
contract read-results do not change during one operation.  A `none`
result models the corresponding contract call or RPC raising. -/
structure Chain where
  balance : String → Nat
  nonce : String → Nat
  gasPrice : Nat
  code : String → Option (List Nat)
  balanceOf : String → String → Option Nat
  decimals : String → Option Nat
  symbol : String → Option String
  tokenName : String → Option String
  blockTimestamp : Int
  txHash : String
  receipt : Nat
  chainId : Int

/-- The transactions broadcast during an operation, read off its RPC
trace. -/
def broadcasts (tr : List Rpc) : List Tx :=
  tr.filterMap fun c => match c with
    | .sendRaw tx => some tx
    | _ => none

/-! ## Shared helpers of the Python source -/

/-- Model of Python `s.strip()`: drop ASCII whitespace from both ends.
(Python also strips a few rarer control characters; nothing the engine
handles contains them.) -/
def pyStrip (s : String) : String :=
  String.mk (((s.data.dropWhile Char.isWhitespace).reverse.dropWhile
    Char.isWhitespace).reverse)

/-- Model of the recurring pattern `if not s.startswith("0x"): s = "0x" + s`. -/
def norm0x (s : String) : String :=
  match s.data with
  | '0' :: 'x' :: _ => s
  | _ => String.mk ('0' :: 'x' :: s.data)

/-- Python `int(...)` applied to an exact `Decimal`: truncation toward
zero. -/
def pyTrunc (q : ℚ) : ℤ := Int.tdiv q.num (q.den : ℤ)

/-- Model of `_eth_to_wei`: `int(eth_amount * Decimal(10**18))`. -/
def eth_to_wei (eth_amount : ℚ) : ℤ := pyTrunc (eth_amount * 10 ^ 18)

/-- Model of `_wei_to_eth`: `Decimal(wei_amount) / Decimal(10**18)`. -/
def wei_to_eth (wei_amount : Nat) : ℚ := (wei_amount : ℚ) / 10 ^ 18

/-- Model of `account_service._validate_address`, which is
`Web3.to_checksum_address` with failures turned into `ValueError
Invalid Ethereum address`. -/
def svc_validate_address (address : String) : Except Err String :=
  match toChecksumAddress address with
  | some r => .ok r
  | none => .error .invalidAddress

/-- Hex-digit run with single underscores between digits, as accepted
after the first digit by Python `int(s, 16)`. -/
def hexTailOk : List Char → Bool
  | [] => true
  | ['_'] => false
  | '_' :: c :: r => isHexChar c && hexTailOk r
  | c :: r => isHexChar c && hexTailOk r

/-- Nonempty hex-digit run with single interior underscores. -/
def hexDigitsOk : List Char → Bool
  | [] => false
  | c :: r => isHexChar c && hexTailOk r

/-- Model of whether Python `int(s, 16)` succeeds: optional surrounding
whitespace, optional sign, optional `0x`/`0X` prefix (an underscore may
directly follow the prefix), then hex digits with single interior
underscores.  Non-ASCII digit forms are not modelled; the engine only
ever reaches this with ASCII input. -/
def pyInt16Ok (s : String) : Bool :=
  let cs := (pyStrip s).data
  let cs := match cs with
    | '+' :: r => r
    | '-' :: r => r
    | r => r
  let p := match cs with
    | '0' :: 'x' :: r => (true, r)
    | '0' :: 'X' :: r => (true, r)
    | r => (false, r)
  match p.1, p.2 with
  | true, '_' :: r => hexDigitsOk r
  | _, r => hexDigitsOk r

/-- Model of `SomniaExchangeService._validate_private_key`: reject empty,
strip, 0x-normalize, require 66 characters total with an
`int(key, 16)`-parsable hex part. -/
def ex_validate_private_key (private_key : String) : Except Err String :=
  if private_key = "" then .error .invalidKey
  else
    let pk := norm0x (pyStrip private_key)
    if pk.data.length ≠ 66 then .error .invalidKey
    else if pyInt16Ok (String.mk (pk.data.drop 2)) then .ok pk
    else .error .invalidKey

/-- Model of `SomniaExchangeService._validate_address`: reject empty,
strip, 0x-normalize, require 42 characters, all-hex body, then
checksum-encode.  (The source re-checks the body with `int(part, 16)`,
which cannot fail after the per-character hex check.) -/
def ex_validate_address (address : String) : Except Err String :=
  if address = "" then .error .invalidAddress
  else
    let a := norm0x (pyStrip address)
    if a.data.length ≠ 42 then .error .invalidAddress
    else if (a.data.drop 2).all isHexChar then
      match toChecksumAddress a with
      | some r => .ok r
      | none => .error .invalidAddress
    else .error .invalidAddress

/-- Sequential validation of a swap path, as the list comprehension
`[self._validate_address(a) for a in path]` (first failure aborts). -/
def ex_validate_path : List String → Except Err (List String)
  | [] => .ok []
  | a :: rest =>
    match ex_validate_address a with
    | .error e => .error e
    | .ok a2 =>
      match ex_validate_path rest with
      | .error e => .error e
      | .ok r2 => .ok (a2 :: r2)

/-! ## The pydantic models (`app/models/account_models.py`) -/

/-- Match of the regex `0x[a-fA-F0-9]X40` anchored at both ends, used by
the `address` and `token_address` field validators. -/
def reAddressOk (s : String) : Bool :=
  match s.data with
  | '0' :: 'x' :: rest => rest.length == 40 && rest.all isHexChar
  | _ => false

/-- Model of `EVMAccount.validate_address`: regex check, then the value
is stored lower-cased. -/
def evm_validate_address (v : String) : Except Err String :=
  if reAddressOk v then .ok (strLower v) else .error .validationError

/-- Model of `EVMAccount.validate_private_key`: strip an optional `0x`
and require exactly 64 hex characters. -/
def evm_validate_private_key (v : String) : Except Err String :=
  let v2 := match v.data with
    | '0' :: 'x' :: rest => String.mk rest
    | _ => v
  if v2.data.length == 64 && v2.data.all isHexChar then .ok v2
  else .error .validationError

/-- The `EVMAccount` pydantic model (post-validation field values). -/
structure EVMAccount where
  address : String
  private_key : String
  balance : ℚ
  nonce : Int
  chain_id : Int
  deriving DecidableEq, Repr

/-- Constructing an `EVMAccount` runs the four field validators; any
failure is a pydantic `ValidationError`. -/
def EVMAccount.make (address private_key : String) (balance : ℚ)
    (nonce : Int) (chain_id : Int) : Except Err EVMAccount :=
  match evm_validate_address address with
  | .error e => .error e
  | .ok a =>
  match evm_validate_private_key private_key with
  | .error e => .error e
  | .ok k =>
  if balance < 0 then .error .validationError
  else if nonce < 0 then .error .validationError
  else .ok ⟨a, k, balance, nonce, chain_id⟩

/-- The `TokenBalance` pydantic model (post-validation field values).
`decimals` arrives from the contract as a `uint8`, hence a natural
number; the validator additionally caps it at 77. -/
structure TokenBalance where
  token_address : String
  token_symbol : String
  token_name : String
  balance : ℚ
  decimals : Nat
  deriving DecidableEq, Repr

/-- Constructing a `TokenBalance` runs its field validators: address
regex then lower-casing, non-negative balance, decimals at most 77. -/
def TokenBalance.make (token_address token_symbol token_name : String)
    (balance : ℚ) (decimals : Nat) : Except Err TokenBalance :=
  if reAddressOk token_address then
    if balance < 0 then .error .validationError
    else if 77 < decimals then .error .validationError
    else .ok ⟨strLower token_address, token_symbol, token_name, balance, decimals⟩
  else .error .validationError

/-- The `AccountPortfolio` pydantic model. -/
structure AccountPortfolio where
  account : EVMAccount
  token_balances : List (String × TokenBalance)
  total_value_usd : Option ℚ
  last_updated : Option Int
  deriving DecidableEq, Repr

/-! ## `AccountService` operations (`app/services/account_service.py`)

Each operation takes the chain oracle `C`, where needed the
key-derivation oracle `ka` (modelling `eth_account.Account.from_key`:
`some address` on a valid key, `none` when it raises) and the service's
`chain_id`, and returns its result together with the ordered RPC
trace. -/

/-- Model of `AccountService.get_eth_balance`. -/
def get_eth_balance (C : Chain) (address : String) : Except Err ℚ × List Rpc :=
  match svc_validate_address address with
  | .error e => (.error e, [])
  | .ok addr => (.ok (wei_to_eth (C.balance addr)), [.getBalance addr])

/-- Model of `AccountService.get_token_balance`: validate both
addresses, then issue the four read-only contract calls in source order
(`balanceOf`, `decimals`, `symbol`, `name`); any call failure aborts the
operation, and the result is built through the `TokenBalance`
validators. -/
def get_token_balance (C : Chain) (address token_address : String) :
    Except Err TokenBalance × List Rpc :=
  match svc_validate_address address with
  | .error e => (.error e, [])
  | .ok addr =>
  match svc_validate_address token_address with
  | .error e => (.error e, [])
  | .ok tok =>
  match C.balanceOf tok addr with
  | none => (.error .tokenQueryFailed, [.callBalanceOf tok addr])
  | some braw =>
  match C.decimals tok with
  | none => (.error .tokenQueryFailed, [.callBalanceOf tok addr, .callDecimals tok])
  | some dec =>
  match C.symbol tok with
  | none => (.error .tokenQueryFailed,
      [.callBalanceOf tok addr, .callDecimals tok, .callSymbol tok])
  | some sym =>
  match C.tokenName tok with
  | none => (.error .tokenQueryFailed,
      [.callBalanceOf tok addr, .callDecimals tok, .callSymbol tok, .callName tok])
  | some nm =>
    (TokenBalance.make tok sym nm ((braw : ℚ) / 10 ^ dec) dec,
      [.callBalanceOf tok addr, .callDecimals tok, .callSymbol tok, .callName tok])

/-- Python-dict insertion: overwrite in place when the key is present,
append otherwise. -/
def dictInsert (m : List (String × TokenBalance)) (k : String) (v : TokenBalance) :
    List (String × TokenBalance) :=
  if m.any (fun p => p.1 == k) then m.map (fun p => if p.1 == k then (k, v) else p)
  else m ++ [(k, v)]

/-- Loop body of `get_multiple_token_balances`: each token is queried
independently; a failed query is skipped, a successful one is stored
under the lower-cased input address. -/
def gmtbAux (C : Chain) (address : String) :
    List (String × TokenBalance) → List String →
      List (String × TokenBalance) × List Rpc
  | acc, [] => (acc, [])
  | acc, t :: ts =>
    match get_token_balance C address t with
    | (.ok b, tr) =>
      let r := gmtbAux C address (dictInsert acc (strLower t) b) ts
      (r.1, tr ++ r.2)
    | (.error _, tr) =>
      let r := gmtbAux C address acc ts
      (r.1, tr ++ r.2)

/-- Model of `AccountService.get_multiple_token_balances`. -/
def get_multiple_token_balances (C : Chain) (address : String)
    (token_addresses : List String) :
    List (String × TokenBalance) × List Rpc :=
  gmtbAux C address [] token_addresses

/-- Model of `AccountService.get_account_portfolio`: validate, fetch
native balance and nonce, build the embedded `EVMAccount` with an empty
`private_key`, optionally batch-query tokens, and stamp with the latest
block's timestamp. -/
def get_account_portfolio (C : Chain) (chain_id : Int) (address : String)
    (token_addresses : List String) :
    Except Err AccountPortfolio × List Rpc :=
  match svc_validate_address address with
  | .error e => (.error e, [])
  | .ok addr =>
  match get_eth_balance C addr with
  | (.error e, tr) => (.error e, tr)
  | (.ok eth_balance, tr) =>
    let nonce := C.nonce addr
    let tr := tr ++ [.getNonce addr]
    match EVMAccount.make addr "" eth_balance (nonce : Int) chain_id with
    | .error e => (.error e, tr)
    | .ok acct =>
      let tb :=
        if token_addresses = [] then ([], [])
        else get_multiple_token_balances C addr token_addresses
      (.ok ⟨acct, tb.1, none, some C.blockTimestamp⟩,
        tr ++ tb.2 ++ [.getBlock])

/-- Model of `AccountService.send_eth`: 0x-normalize and derive the
sender, validate the destination, convert the amount to wei, then check
balance against the amount, resolve the gas price, check balance against
amount plus gas, fetch the nonce, sign, and broadcast.  The signing step
`sign_transaction` runs the legacy-transaction RLP serializer, whose
`big_endian_int` field encoder raises `Cannot serialize negative
integers` when `value` is negative, so a negative `amount_wei` raises
there, after the nonce fetch and before any broadcast. -/
def send_eth (C : Chain) (ka : String → Option String) (chain_id : Int)
    (private_key to_address : String) (amount_eth : ℚ) (gas_limit : Nat)
    (gas_price : Option Nat) : Except Err String × List Rpc :=
  let pk := norm0x private_key
  match ka pk with
  | none => (.error .invalidKey, [])
  | some from_address =>
  match svc_validate_address to_address with
  | .error e => (.error e, [])
  | .ok to_addr =>
    let amount_wei := eth_to_wei amount_eth
    let balance_wei := C.balance from_address
    if (balance_wei : ℤ) < amount_wei then
      (.error .insufficientBalance, [.getBalance from_address])
    else
      let gp := match gas_price with
        | some g => g
        | none => C.gasPrice
      let gpTr : List Rpc := match gas_price with
        | some _ => []
        | none => [.gasPrice]
      let total_cost := amount_wei + (gas_limit * gp : ℕ)
      if (balance_wei : ℤ) < total_cost then
        (.error .insufficientBalance, .getBalance from_address :: gpTr)
      else if amount_wei < 0 then
        (.error .serializationError,
          .getBalance from_address :: gpTr ++ [.getNonce from_address])
      else
        let tx : Tx :=
          ⟨to_addr, amount_wei, gas_limit, gp, C.nonce from_address, chain_id, .plain⟩
        (.ok C.txHash,
          .getBalance from_address :: gpTr ++
            [.getNonce from_address, .sendRaw tx])

/-- Model of `AccountService.is_contract_address`: any failure inside
the body — including address validation and the `getCode` RPC — is
caught and turned into `False`. -/
def is_contract_address (C : Chain) (address : String) : Bool × List Rpc :=
  match svc_validate_address address with
  | .error _ => (false, [])
  | .ok addr =>
    match C.code addr with
    | none => (false, [.getCode addr])
    | some code => (decide (0 < code.length), [.getCode addr])

/-! ## The transaction route (`send_eth` of `app/api/routes/gateway.py`)

The request/response models `SendEthRequest`, `SendTokenRequest` and
`TransactionResponse` are imported by the route modules from
`app.models.account_models` but their definitions are not present in
the source snapshot, so they are modelled from the spec (see each doc
comment).

The `send_eth` route function exists in two line-identical copies:
`app/api/routes/gateway.py` (lines 319–384) and
`app/api/routes/account.py` (lines 377–442).  They differ in one line
only: the gateway copy resolves the sender with the module-level
function `get_address_from_private_key`, while the account copy calls
`service.get_address_from_private_key(...)`, an attribute the
`AccountService` class does not define, so that copy raises
`AttributeError` before reaching the MAX logic.  The embedding below
follows the working gateway copy; its MAX block is the code cited from
either file. -/

/-- A JSON value that is either a string or a number, as the `amount`
field of the send requests (`isinstance(request.amount, str)` is the
dispatch the route performs). -/
inductive PyVal where
  | pstr (s : String)
  | pnum (q : ℚ)
  deriving DecidableEq, Repr

/-- Modelled from the spec: `SendEthRequest` (absent from the snapshot;
the spec gives `sendNative(privateKey, to, amountOrMAX, gasLimit,
gasPrice?)`). -/
structure SendEthRequest where
  private_key : String
  to_address : String
  amount : PyVal
  gas_limit : Nat
  gas_price : Option Nat

/-- Modelled from the spec: `TransactionResponse` (absent from the
snapshot); the fields the route fills in.  The numeric fields are kept
as exact values rather than their decimal string rendering. -/
structure TransactionResponse where
  transaction_hash : String
  from_address : String
  to_address : String
  amount : ℚ
  gas_limit : Nat
  gas_price : Nat
  estimated_gas_cost : ℚ
  deriving DecidableEq, Repr

/-- Decimal digit string value. -/
def digitsVal (cs : List Char) : Nat := cs.foldl (fun a c => a * 10 + (c.toNat - 48)) 0

/-- Model of whether/what `Decimal(s)` parses for a finite decimal
literal: optional surrounding whitespace and sign, digits with at most
one point, optional exponent.  (Special values such as infinities are
not modelled; the engine never constructs them.) -/
def parseDec (s : String) : Option ℚ :=
  let cs := (pyStrip s).data
  let sgn : ℚ := match cs with
    | '-' :: _ => -1
    | _ => 1
  let cs := match cs with
    | '+' :: r => r
    | '-' :: r => r
    | r => r
  let mant := cs.takeWhile fun c => c != 'e' && c != 'E'
  let expPart := cs.dropWhile fun c => c != 'e' && c != 'E'
  let expVal : Option Int :=
    match expPart with
    | [] => some 0
    | _ :: r =>
      let es : Int := match r with
        | '-' :: _ => -1
        | _ => 1
      let r2 := match r with
        | '+' :: t => t
        | '-' :: t => t
        | t => t
      if r2 ≠ [] ∧ r2.all Char.isDigit then some (es * digitsVal r2) else none
  match expVal with
  | none => none
  | some e =>
    let ip := mant.takeWhile fun c => c != '.'
    let frac := mant.dropWhile fun c => c != '.'
    let fp := match frac with
      | [] => []
      | _ :: t => t
    if (ip ≠ [] ∨ fp ≠ []) ∧ ip.all Char.isDigit ∧ fp.all Char.isDigit then
      let v := sgn * ((digitsVal ip : ℚ) + (digitsVal fp : ℚ) / 10 ^ fp.length)
      some (if 0 ≤ e then v * 10 ^ e.toNat else v / 10 ^ (-e).toNat)
    else none

/-- Model of the route `send_eth` (gateway copy, see above): resolve the
sender from the key; on the case-insensitive MAX sentinel fetch the
balance, resolve the gas price, compute `sendable = balance - gasLimit *
gasPrice` in ETH and reject it when non-positive; then delegate to
`AccountService.send_eth` and assemble the response (re-fetching the gas
price when the request left it unset). -/
def send_eth_route (C : Chain) (ka : String → Option String) (chain_id : Int)
    (req : SendEthRequest) : Except Err TransactionResponse × List Rpc :=
  match ka (norm0x req.private_key) with
  | none => (.error .invalidKey, [])
  | some sender_address =>
    let sendPart := fun (tr0 : List Rpc) (amount_to_send : ℚ) =>
      match send_eth C ka chain_id req.private_key req.to_address amount_to_send
          req.gas_limit req.gas_price with
      | (.error e, tr) => ((.error e : Except Err TransactionResponse), tr0 ++ tr)
      | (.ok txh, tr) =>
        let fgp := match req.gas_price with
          | some g => g
          | none => C.gasPrice
        let fgpTr : List Rpc := match req.gas_price with
          | some _ => []
          | none => [.gasPrice]
        (.ok ⟨txh, sender_address, req.to_address, amount_to_send, req.gas_limit,
            fgp, wei_to_eth (req.gas_limit * fgp)⟩,
          tr0 ++ tr ++ fgpTr)
    match req.amount with
    | .pstr s =>
      if strUpper s = "MAX" then
        match get_eth_balance C sender_address with
        | (.error e, tr) => (.error e, tr)
        | (.ok balance, tr) =>
          let gp := match req.gas_price with
            | some g => g
            | none => C.gasPrice
          let gpTr : List Rpc := match req.gas_price with
            | some _ => []
            | none => [.gasPrice]
          let gas_cost_eth := wei_to_eth (req.gas_limit * gp)
          let max_amount := balance - gas_cost_eth
          if max_amount ≤ 0 then (.error .insufficientFundsForGas, tr ++ gpTr)
          else sendPart (tr ++ gpTr) max_amount
      else
        match parseDec s with
        | none => (.error .badDecimal, [])
        | some q => sendPart [] q
    | .pnum q => sendPart [] q

/-! ## `SomniaExchangeService` operations
(`app/services/somnia_exchange_service.py`)

Each operation takes the router contract address (fixed at service
construction) and the configured `settings.GAS_LIMIT`.  Signing with
`eth_account` is modelled through the key oracle `ka`; a `none` result
is the signing exception. -/

/-- Model of `swap_exact_tokens_for_tokens`: path-length check, address
validation, transaction build (nonce then gas-price fetch), then — only
after the build — private-key validation, signing, broadcast and
receipt wait. -/
def swap_exact_tokens_for_tokens (C : Chain) (ka : String → Option String)
    (router : String) (settings_gas_limit : Nat) (amount_in amount_out_min : Int)
    (path : List String) (to_address : String) (deadline : Int)
    (from_address private_key : String) : Except Err Nat × List Rpc :=
  if path.length < 2 then (.error .invalidSwapPath, [])
  else
  match ex_validate_path path with
  | .error e => (.error e, [])
  | .ok path2 =>
  match ex_validate_address to_address with
  | .error e => (.error e, [])
  | .ok to2 =>
  match ex_validate_address from_address with
  | .error e => (.error e, [])
  | .ok from2 =>
    let tx : Tx :=
      ⟨router, 0, settings_gas_limit, C.gasPrice, C.nonce from2, C.chainId,
        .swapExactTokensForTokens amount_in amount_out_min path2 to2 deadline⟩
    let trB : List Rpc := [.getNonce from2, .gasPrice]
    match ex_validate_private_key private_key with
    | .error e => (.error e, trB)
    | .ok pk2 =>
      match ka pk2 with
      | none => (.error .signError, trB)
      | some _ => (.ok C.receipt, trB ++ [.sendRaw tx, .waitReceipt])

/-- Model of `swap_exact_eth_for_tokens`: no path-length check and no
private-key validation; addresses are validated, the transaction is
built (nonce then gas price) with the ETH value attached, then signed
directly with the caller's key. -/
def swap_exact_eth_for_tokens (C : Chain) (ka : String → Option String)
    (router : String) (settings_gas_limit : Nat) (amount_out_min : Int)
    (path : List String) (to_address : String) (deadline : Int)
    (from_address private_key : String) (eth_value : Int) :
    Except Err Nat × List Rpc :=
  match ex_validate_path path with
  | .error e => (.error e, [])
  | .ok path2 =>
  match ex_validate_address to_address with
  | .error e => (.error e, [])
  | .ok to2 =>
  match ex_validate_address from_address with
  | .error e => (.error e, [])
  | .ok from2 =>
    let tx : Tx :=
      ⟨router, eth_value, settings_gas_limit, C.gasPrice, C.nonce from2, C.chainId,
        .swapExactETHForTokens amount_out_min path2 to2 deadline⟩
    let trB : List Rpc := [.getNonce from2, .gasPrice]
    match ka (norm0x private_key) with
    | none => (.error .signError, trB)
    | some _ => (.ok C.receipt, trB ++ [.sendRaw tx, .waitReceipt])

/-- Model of `swap_exact_tokens_for_eth`: same shape as the ETH variant
(no path-length check, no private-key validation), with token-side
calldata and zero native value. -/
def swap_exact_tokens_for_eth (C : Chain) (ka : String → Option String)
    (router : String) (settings_gas_limit : Nat) (amount_in amount_out_min : Int)
    (path : List String) (to_address : String) (deadline : Int)
    (from_address private_key : String) : Except Err Nat × List Rpc :=
  match ex_validate_path path with
  | .error e => (.error e, [])
  | .ok path2 =>
  match ex_validate_address to_address with
  | .error e => (.error e, [])
  | .ok to2 =>
  match ex_validate_address from_address with
  | .error e => (.error e, [])
  | .ok from2 =>
    let tx : Tx :=
      ⟨router, 0, settings_gas_limit, C.gasPrice, C.nonce from2, C.chainId,
        .swapExactTokensForETH amount_in amount_out_min path2 to2 deadline⟩
    let trB : List Rpc := [.getNonce from2, .gasPrice]
    match ka (norm0x private_key) with
    | none => (.error .signError, trB)
    | some _ => (.ok C.receipt, trB ++ [.sendRaw tx, .waitReceipt])

/-- The RPC trace of one gas-price resolution step: empty when the
caller supplied a price, one `gasPrice` call when the node is asked. -/
def gasPriceTrace (gas_price : Option Nat) : List Rpc :=
  match gas_price with
  | some _ => []
  | none => [.gasPrice]

/-! ## Concrete fixtures

EIP-55 test-vector addresses and a small concrete chain oracle, used by
the witness and counterexample theorems below. -/

/-- EIP-55 test vector address (mixed case). -/
def addrOne : String := "0x5aAeb6053F3E94C9b9A09f33669435E7Ef1BeAed"

/-- EIP-55 test vector address (mixed case). -/
def addrTwo : String := "0xfB6916095ca1df60bB79Ce92cE3Ea74c37c5d359"

/-- EIP-55 test vector address (mixed case). -/
def addrThree : String := "0xdbF03B407c01E7cD3CBea99509d93f8DDDC8C6FB"

/-- EIP-55 test vector address (mixed case). -/
def addrFour : String := "0xD1220A0cf47c7B9Be7A2E6BA89F429762e7b9aDb"

/-- A well-formed 64-hex-character private key (no 0x prefix). -/
def testPk : String :=
  "aaaaaaaaaaaaaaaaaaaaaaaaaaaaaaaaaaaaaaaaaaaaaaaaaaaaaaaaaaaaaaaa"

/-- Concrete key oracle: `testPk` derives `addrOne`; everything else is
an invalid key. -/
def testKa : String → Option String :=
  fun pk => if pk = norm0x testPk then some addrOne else none

/-- Concrete chain oracle: every account holds 5 ETH and nonce 7;
`addrOne` has code, `addrThree` has empty code, all other `getCode`
calls fail; the tokens at `addrTwo` and `addrFour` answer the ERC-20
reads, every other token read fails. -/
def testChain : Chain :=
  ⟨fun _ => 5 * 10 ^ 18,
   fun _ => 7,
   10 ^ 9,
   fun a => if a = addrOne then some [96, 128]
     else if a = addrThree then some [] else none,
   fun t _ => if t = addrTwo then some (10 ^ 19)
     else if t = addrFour then some 12345 else none,
   fun t => if t = addrTwo then some 6
     else if t = addrFour then some 18 else none,
   fun t => if t = addrTwo then some "TKA"
     else if t = addrFour then some "TKB" else none,
   fun t => if t = addrTwo then some "Token A"
     else if t = addrFour then some "Token B" else none,
   1700000000,
   "0xabc123",
   1,
   50312⟩

/-! # Theorems

First the supporting lemmas and hash test vectors, then one theorem per
claim (with its witness or counterexample where required). -/

/-! ## Character and hex lemmas -/

theorem hexVal_lowerAscii (c : Char) : hexVal (lowerAscii c) = hexVal c := by
  unfold lowerAscii; split <;> rfl

theorem hexVal_congr_of_lower {c d : Char} (h : lowerAscii c = lowerAscii d) :
    hexVal c = hexVal d := by
  rw [← hexVal_lowerAscii c, ← hexVal_lowerAscii d, h]

theorem lowerAscii_eq_zero_iff (c : Char) : lowerAscii c = '0' ↔ c = '0' := by
  unfold lowerAscii; split <;> first | exact Iff.rfl | decide

theorem lowerAscii_eq_x_iff (c : Char) :
    lowerAscii c = 'x' ↔ (c = 'x' ∨ c = 'X') := by
  unfold lowerAscii
  split
  case _ h => simp_all
  all_goals first | decide | simp_all

theorem hexVal_lt {c : Char} {n : Nat} (h : hexVal c = some n) : n < 16 := by
  unfold hexVal at h
  split at h
  · injection h with h2; omega
  · split at h
    · injection h with h2; omega
    · split at h
      · injection h with h2; omega
      · cases h

theorem hexList_length {cs : List Char} {ns : List Nat}
    (h : hexList cs = some ns) : ns.length = cs.length := by
  induction cs generalizing ns with
  | nil =>
    simp only [hexList, Option.some_inj] at h
    subst h; rfl
  | cons c cs ih =>
    unfold hexList at h
    split at h
    case _ n ns2 hv hl =>
      cases h
      simpa using ih hl
    case _ => cases h

theorem hexList_mem_lt {cs : List Char} {ns : List Nat}
    (h : hexList cs = some ns) : ∀ n ∈ ns, n < 16 := by
  induction cs generalizing ns with
  | nil =>
    simp only [hexList, Option.some_inj] at h
    subst h; simp
  | cons c cs ih =>
    unfold hexList at h
    split at h
    case _ n ns2 hv hl =>
      cases h
      intro m hm
      rcases List.mem_cons.mp hm with h1 | h2
      · subst h1; exact hexVal_lt hv
      · exact ih hl m h2
    case _ => cases h

theorem hexList_congr {as bs : List Char}
    (h : as.map lowerAscii = bs.map lowerAscii) : hexList as = hexList bs := by
  induction as generalizing bs with
  | nil => cases bs <;> simp_all
  | cons a as ih =>
    cases bs with
    | nil => simp at h
    | cons b bs =>
      simp only [List.map_cons, List.cons.injEq] at h
      unfold hexList
      rw [hexVal_congr_of_lower h.1, ih h.2]

theorem nibble_roundtrip (m : Fin 16) :
    hexVal (nibbleCharLower m.val) = some m.val ∧
      hexVal (nibbleCharUpper m.val) = some m.val := by
  revert m; decide

/-! ## Keccak test vectors -/

/-- Known test vector: Keccak-256 of the empty string is the well-known
empty-code hash of Ethereum. -/
theorem keccak256_empty :
    bytesToHex (keccak256 (strBytes "")) =
      "c5d2460186f7233c927e7db2dcc703c0e500b653ca82273b7bfad8045d85a470" := by
  decide

/-- Known test vector: Keccak-256 of the ASCII string abc. -/
theorem keccak256_abc :
    bytesToHex (keccak256 (strBytes "abc")) =
      "4e03657aea45a94fc7d47ba826c8d667c0d1e6e33a64a036ec44f58fa12d6c45" := by
  decide

/-- The four mixed-case test vectors of EIP-55. -/
theorem eip55_test_vectors :
    toChecksumAddress (strLower addrOne) = some addrOne ∧
      toChecksumAddress (strLower addrTwo) = some addrTwo ∧
      toChecksumAddress (strLower addrThree) = some addrThree ∧
      toChecksumAddress (strLower addrFour) = some addrFour := by
  refine ⟨by decide, by decide, by decide, by decide⟩

/-! ## Checksum-address lemmas -/

theorem checksumGo_length (h : List Nat) (i : Nat) (ns : List Nat) :
    (checksumGo h i ns).length = ns.length := by
  induction ns generalizing i with
  | nil => rfl
  | cons n ns ih => simp [checksumGo, ih]

theorem hexList_checksumGo (h : List Nat) (i : Nat) (ns : List Nat)
    (hb : ∀ n ∈ ns, n < 16) : hexList (checksumGo h i ns) = some ns := by
  induction ns generalizing i with
  | nil => rfl
  | cons n ns ih =>
    have hn : n < 16 := hb n (List.mem_cons_self n ns)
    have hrt := nibble_roundtrip ⟨n, hn⟩
    have ht := ih (i + 1) (fun x hx => hb x (List.mem_cons_of_mem _ hx))
    by_cases hc : 8 ≤ hashNibble h i
    · simp only [checksumGo, if_pos hc]
      unfold hexList
      rw [hrt.2, ht]
    · simp only [checksumGo, if_neg hc]
      unfold hexList
      rw [hrt.1, ht]

theorem checksumChars_length (ns : List Nat) :
    (checksumChars ns).length = ns.length := by
  unfold checksumChars
  exact checksumGo_length _ _ _

theorem parseHexAddrList_cons (c0 c1 : Char) (rest : List Char) :
    parseHexAddrList (c0 :: c1 :: rest) =
      if c0 = '0' ∧ (c1 = 'x' ∨ c1 = 'X') ∧ rest.length = 40 then hexList rest
      else none := rfl

theorem parseHexAddr_data {s : String} {ns : List Nat}
    (h : parseHexAddr s = some ns) : ns.length = 40 := by
  unfold parseHexAddr parseHexAddrList at h
  split at h
  case _ c0 c1 rest =>
    split at h
    case isTrue hc => rw [hexList_length h, hc.2.2]
    case isFalse => cases h
  case _ => cases h

theorem toChecksumAddress_checksummed {s r : String}
    (h : toChecksumAddress s = some r) : isChecksummed r := by
  unfold toChecksumAddress at h
  rcases Option.map_eq_some'.mp h with ⟨ns, hp, hr⟩
  have hlen : ns.length = 40 := parseHexAddr_data hp
  have hb : ∀ n ∈ ns, n < 16 := by
    unfold parseHexAddr parseHexAddrList at hp
    split at hp
    case _ c0 c1 rest =>
      split at hp
      case isTrue => exact hexList_mem_lt hp
      case isFalse => cases hp
    case _ => cases hp
  unfold isChecksummed toChecksumAddress
  subst hr
  have hlen2 : (checksumChars ns).length = 40 := by
    rw [checksumChars_length, hlen]
  have hpr : parseHexAddr (String.mk ('0' :: 'x' :: checksumChars ns)) = some ns := by
    show parseHexAddrList ('0' :: 'x' :: checksumChars ns) = some ns
    rw [parseHexAddrList_cons, if_pos ⟨rfl, Or.inl rfl, hlen2⟩]
    unfold checksumChars
    exact hexList_checksumGo _ 0 ns hb
  rw [hpr]
  rfl

theorem parseHexAddrList_congr_lower {as bs : List Char}
    (hd : as.map lowerAscii = bs.map lowerAscii) :
    parseHexAddrList as = parseHexAddrList bs := by
  cases as with
  | nil => cases bs with
    | nil => rfl
    | cons b bs => simp at hd
  | cons a as =>
    cases bs with
    | nil => simp at hd
    | cons b bs =>
      simp only [List.map_cons, List.cons.injEq] at hd
      cases as with
      | nil =>
        cases bs with
        | nil => rfl
        | cons b2 bs2 => simp at hd
      | cons a2 as2 =>
        cases bs with
        | nil => simp at hd
        | cons b2 bs2 =>
          simp only [List.map_cons, List.cons.injEq] at hd
          obtain ⟨h01, h02, h03⟩ := hd
          have e0 : (a = '0') = (b = '0') := by
            simp only [eq_iff_iff]
            rw [← lowerAscii_eq_zero_iff a, ← lowerAscii_eq_zero_iff b, h01]
          have e1 : (a2 = 'x' ∨ a2 = 'X') = (b2 = 'x' ∨ b2 = 'X') := by
            simp only [eq_iff_iff]
            rw [← lowerAscii_eq_x_iff a2, ← lowerAscii_eq_x_iff b2, h02]
          have e2 : as2.length = bs2.length := by
            have := congrArg List.length h03
            simpa using this
          have e3 : hexList as2 = hexList bs2 := hexList_congr h03
          rw [parseHexAddrList_cons, parseHexAddrList_cons]
          have hiff : (a = '0' ∧ (a2 = 'x' ∨ a2 = 'X') ∧ as2.length = 40) ↔
              (b = '0' ∧ (b2 = 'x' ∨ b2 = 'X') ∧ bs2.length = 40) := by
            rw [e0, e1, e2]
          exact if_congr hiff e3 rfl

theorem parseHexAddr_congr_lower {s t : String}
    (h : strLower s = strLower t) : parseHexAddr s = parseHexAddr t := by
  have hd : s.data.map lowerAscii = t.data.map lowerAscii := by
    have := congrArg String.data h
    simpa [strLower] using this
  unfold parseHexAddr
  exact parseHexAddrList_congr_lower hd

theorem toChecksumAddress_congr_lower {s t : String}
    (h : strLower s = strLower t) : toChecksumAddress s = toChecksumAddress t := by
  unfold toChecksumAddress
  rw [parseHexAddr_congr_lower h]

/-! ## Model-validator lemmas -/

theorem evm_validate_address_lower {s r : String}
    (h : evm_validate_address s = .ok r) : r = strLower s := by
  unfold evm_validate_address at h
  split at h
  · injection h with h2
    exact h2.symm
  · cases h

theorem evm_validate_address_error {s : String} {e : Err}
    (h : evm_validate_address s = .error e) : e = .validationError := by
  unfold evm_validate_address at h
  split at h
  · cases h
  · injection h with h2
    exact h2.symm

theorem evm_make_empty_key (a : String) (b : ℚ) (n ci : Int) :
    EVMAccount.make a "" b n ci = .error .validationError := by
  unfold EVMAccount.make
  cases h : evm_validate_address a with
  | error e => rw [evm_validate_address_error h]
  | ok a2 =>
    rw [show evm_validate_private_key "" = .error .validationError from rfl]

/-! ## Claim C7 -/

/-- Claim C7, amended.  Service-level address normalization
(`_validate_address`, i.e. `Web3.to_checksum_address`) always produces
the EIP-55 mixed-case checksum form and depends only on the
letter-case-insensitive content of the address; the `EVMAccount` model
validator, by contrast, stores accepted addresses lower-cased — not in
checksum form — and is likewise case-insensitive on accepted
addresses. -/
theorem c7_address_normalization :
    (∀ s r, svc_validate_address s = .ok r → isChecksummed r) ∧
    (∀ s t, strLower s = strLower t →
      svc_validate_address s = svc_validate_address t) ∧
    (∀ s r, evm_validate_address s = .ok r → r = strLower s) ∧
    (∀ s t r1 r2, strLower s = strLower t →
      evm_validate_address s = .ok r1 → evm_validate_address t = .ok r2 →
      r1 = r2) := by
  refine ⟨?_, ?_, ?_, ?_⟩
  · intro s r h
    unfold svc_validate_address at h
    cases hc : toChecksumAddress s with
    | none => rw [hc] at h; cases h
    | some r2 =>
      rw [hc] at h
      injection h with h2
      subst h2
      exact toChecksumAddress_checksummed hc
  · intro s t h
    unfold svc_validate_address
    rw [toChecksumAddress_congr_lower h]
  · intro s r h
    exact evm_validate_address_lower h
  · intro s t r1 r2 h h1 h2
    rw [evm_validate_address_lower h1, evm_validate_address_lower h2, h]

/-- Claim C7, witness: the checksummed form of an accepted lower-case
address is itself in checksum form. -/
theorem c7_address_normalization_witness :
    isChecksummed "0xfB6916095ca1df60bB79Ce92cE3Ea74c37c5d359" :=
  c7_address_normalization.1 "0xfb6916095ca1df60bb79ce92ce3ea74c37c5d359" _
    (by decide)

/-- Claim C7, counterexample to the claim as stated: the `EVMAccount`
validator accepts this mixed-case address and normalizes it to its
lower-case form, which is not the EIP-55 checksum form. -/
theorem c7_address_normalization_counterexample :
    evm_validate_address "0x5aAeb6053F3E94C9b9A09f33669435E7Ef1BeAed" =
        .ok "0x5aaeb6053f3e94c9b9a09f33669435e7ef1beaed" ∧
      ¬ isChecksummed "0x5aaeb6053f3e94c9b9a09f33669435e7ef1beaed" := by
  exact ⟨by decide, by decide⟩

/-! ## Claim C3 -/

/-- Claim C3 (code bug).  `get_account_portfolio` builds its wallet
snapshot with an empty `private_key` — as the spec requires — but the
`EVMAccount` model validator rejects the empty string (it demands 64 hex
characters), so the portfolio operation never succeeds: its result is
an error for every chain, address and token list.  The second conjunct
evaluates the failing run at a concrete valid address: the validation
error surfaces only after the balance and nonce RPC calls. -/
theorem c3_portfolio_key_rejected :
    (∀ (C : Chain) (chain_id : Int) (address : String) (tokens : List String),
      (get_account_portfolio C chain_id address tokens).1.isOk = false) ∧
    get_account_portfolio testChain 1 addrThree [] =
      (.error .validationError, [.getBalance addrThree, .getNonce addrThree]) := by
  constructor
  · intro C ci a ts
    unfold get_account_portfolio
    split
    · rfl
    · split
      · rfl
      · simp only [evm_make_empty_key]
        rfl
  · decide

/-! ## Claim C9 -/

/-- Claim C9 (confirmed).  `is_contract_address` never raises (it is a
total boolean function); it returns `true` exactly when the address
validates and the fetched code is non-empty, and both an RPC failure of
`getCode` and an invalid address degrade to `false`.  The closing
conjuncts evaluate the three concrete cases: code present, RPC failure,
empty code. -/
theorem c9_is_contract :
    (∀ (C : Chain) (address : String),
      ((is_contract_address C address).1 = true ↔
        ∃ addr code, svc_validate_address address = .ok addr ∧
          C.code addr = some code ∧ code ≠ [])) ∧
    (is_contract_address testChain addrOne).1 = true ∧
    (is_contract_address testChain addrTwo).1 = false ∧
    (is_contract_address testChain addrThree).1 = false := by
  refine ⟨?_, by decide, by decide, by decide⟩
  intro C a
  unfold is_contract_address
  cases h1 : svc_validate_address a with
  | error e => simp [h1]
  | ok addr =>
    cases h2 : C.code addr with
    | none => simp [h1, h2]
    | some code =>
      simp [h1, h2, List.length_pos]

/-- Claim C9, witness: the general equivalence instantiated at the
concrete chain and a contract address. -/
theorem c9_is_contract_witness :
    (is_contract_address testChain addrOne).1 = true :=
  (c9_is_contract.1 testChain addrOne).mpr
    ⟨addrOne, [96, 128], by decide, by decide, by decide⟩

/-! ## Dictionary lemmas for the batched token query -/

theorem map_fst_replace (m : List (String × TokenBalance)) (k : String)
    (v : TokenBalance) :
    (m.map fun p => if p.1 == k then (k, v) else p).map Prod.fst =
      m.map Prod.fst := by
  induction m with
  | nil => rfl
  | cons p ps ih =>
    simp only [List.map_cons, ih, List.cons.injEq, and_true]
    split
    case isTrue h => exact (beq_iff_eq.mp h).symm
    case isFalse h => rfl

theorem dictInsert_keys (m : List (String × TokenBalance)) (k : String)
    (v : TokenBalance) (x : String) :
    x ∈ (dictInsert m k v).map Prod.fst ↔ x ∈ m.map Prod.fst ∨ x = k := by
  unfold dictInsert
  split
  case isTrue hp =>
    rw [map_fst_replace]
    have hk : k ∈ m.map Prod.fst := by
      rcases List.any_eq_true.mp hp with ⟨p, hpm, hpk⟩
      have he : p.1 = k := beq_iff_eq.mp hpk
      exact he ▸ List.mem_map_of_mem Prod.fst hpm
    constructor
    · exact Or.inl
    · rintro (h | rfl)
      · exact h
      · exact hk
  case isFalse hp => simp

theorem dictInsert_mem {m : List (String × TokenBalance)} {k : String}
    {v : TokenBalance} {p : String × TokenBalance}
    (h : p ∈ dictInsert m k v) : p ∈ m ∨ p = (k, v) := by
  unfold dictInsert at h
  split at h
  case isTrue =>
    rcases List.mem_map.mp h with ⟨q, hq, hqe⟩
    by_cases hqk : q.1 == k
    · rw [if_pos hqk] at hqe
      exact Or.inr hqe.symm
    · rw [if_neg hqk] at hqe
      exact Or.inl (hqe ▸ hq)
  case isFalse =>
    rcases List.mem_append.mp h with h1 | h2
    · exact Or.inl h1
    · exact Or.inr (by simpa using h2)

theorem dictInsert_length (m : List (String × TokenBalance)) (k : String)
    (v : TokenBalance) : (dictInsert m k v).length ≤ m.length + 1 := by
  unfold dictInsert
  split
  · simp
  · simp

theorem gmtbAux_keys (C : Chain) (a : String) (ts : List String)
    (acc : List (String × TokenBalance)) (x : String) :
    x ∈ (gmtbAux C a acc ts).1.map Prod.fst ↔
      x ∈ acc.map Prod.fst ∨
        ∃ t, t ∈ ts ∧ strLower t = x ∧
          ((get_token_balance C a t).1.isOk = true) := by
  induction ts generalizing acc with
  | nil => simp [gmtbAux]
  | cons t ts ih =>
    rcases hg : get_token_balance C a t with ⟨res, tr⟩
    cases res with
    | ok b =>
      have hstep : (gmtbAux C a acc (t :: ts)).1 =
          (gmtbAux C a (dictInsert acc (strLower t) b) ts).1 := by
        simp only [gmtbAux]
        rw [hg]
      rw [hstep, ih, dictInsert_keys]
      simp only [List.mem_cons]
      constructor
      · rintro ((h | h) | ⟨t2, ht2, hl, hok⟩)
        · exact Or.inl h
        · exact Or.inr ⟨t, Or.inl rfl, h.symm, by rw [hg]; rfl⟩
        · exact Or.inr ⟨t2, Or.inr ht2, hl, hok⟩
      · rintro (h | ⟨t2, (rfl | ht2), hl, hok⟩)
        · exact Or.inl (Or.inl h)
        · exact Or.inl (Or.inr hl.symm)
        · exact Or.inr ⟨t2, ht2, hl, hok⟩
    | error e =>
      have hstep : (gmtbAux C a acc (t :: ts)).1 = (gmtbAux C a acc ts).1 := by
        simp only [gmtbAux]
        rw [hg]
      rw [hstep, ih]
      simp only [List.mem_cons]
      constructor
      · rintro (h | ⟨t2, ht2, hl, hok⟩)
        · exact Or.inl h
        · exact Or.inr ⟨t2, Or.inr ht2, hl, hok⟩
      · rintro (h | ⟨t2, (rfl | ht2), hl, hok⟩)
        · exact Or.inl h
        · rw [hg] at hok
          cases hok
        · exact Or.inr ⟨t2, ht2, hl, hok⟩

theorem gmtbAux_entries (C : Chain) (a : String) (ts : List String) :
    ∀ (acc : List (String × TokenBalance)) (p : String × TokenBalance),
      p ∈ (gmtbAux C a acc ts).1 →
        p ∈ acc ∨ ∃ t, t ∈ ts ∧ p.1 = strLower t ∧
          (get_token_balance C a t).1 = .ok p.2 := by
  induction ts with
  | nil =>
    intro acc p h
    exact Or.inl (by simpa [gmtbAux] using h)
  | cons t ts ih =>
    intro acc p h
    rcases hg : get_token_balance C a t with ⟨res, tr⟩
    cases res with
    | ok b =>
      have hstep : (gmtbAux C a acc (t :: ts)).1 =
          (gmtbAux C a (dictInsert acc (strLower t) b) ts).1 := by
        simp only [gmtbAux]
        rw [hg]
      rw [hstep] at h
      rcases ih _ p h with hin | ⟨t2, ht2, h1, h2⟩
      · rcases dictInsert_mem hin with hin2 | hpe
        · exact Or.inl hin2
        · refine Or.inr ⟨t, List.mem_cons_self t ts, ?_, ?_⟩
          · rw [hpe]
          · rw [hpe, hg]
      · exact Or.inr ⟨t2, List.mem_cons_of_mem _ ht2, h1, h2⟩
    | error e =>
      have hstep : (gmtbAux C a acc (t :: ts)).1 = (gmtbAux C a acc ts).1 := by
        simp only [gmtbAux]
        rw [hg]
      rw [hstep] at h
      rcases ih _ p h with hin | ⟨t2, ht2, h1, h2⟩
      · exact Or.inl hin
      · exact Or.inr ⟨t2, List.mem_cons_of_mem _ ht2, h1, h2⟩

theorem gmtbAux_length (C : Chain) (a : String) (ts : List String) :
    ∀ acc : List (String × TokenBalance),
      (gmtbAux C a acc ts).1.length ≤ acc.length + ts.length := by
  induction ts with
  | nil =>
    intro acc
    simp [gmtbAux]
  | cons t ts ih =>
    intro acc
    rcases hg : get_token_balance C a t with ⟨res, tr⟩
    cases res with
    | ok b =>
      have hstep : (gmtbAux C a acc (t :: ts)).1 =
          (gmtbAux C a (dictInsert acc (strLower t) b) ts).1 := by
        simp only [gmtbAux]
        rw [hg]
      rw [hstep]
      have h1 := ih (dictInsert acc (strLower t) b)
      have h2 := dictInsert_length acc (strLower t) b
      simp only [List.length_cons]
      omega
    | error e =>
      have hstep : (gmtbAux C a acc (t :: ts)).1 = (gmtbAux C a acc ts).1 := by
        simp only [gmtbAux]
        rw [hg]
      rw [hstep]
      have h1 := ih acc
      simp only [List.length_cons]
      omega

/-! ## Claim C5 -/

/-- Claim C5 (confirmed).  `get_multiple_token_balances` is a total
function (it never raises): each token is queried independently, failed
queries are skipped, and a key is present in the result exactly when
some input token with that lower-cased address was queried successfully.
The closing conjunct is the spec's own example: three requested tokens
of which one fails yield exactly two entries. -/
theorem c5_token_balances_best_effort :
    (∀ (C : Chain) (address : String) (token_addresses : List String)
        (k : String),
      (k ∈ (get_multiple_token_balances C address token_addresses).1.map
          Prod.fst ↔
        ∃ t, t ∈ token_addresses ∧ strLower t = k ∧
          ((get_token_balance C address t).1.isOk = true))) ∧
    (get_multiple_token_balances testChain addrOne
        [addrTwo, addrThree, addrFour]).1.length = 2 := by
  constructor
  · intro C a ts k
    unfold get_multiple_token_balances
    rw [gmtbAux_keys]
    simp
  · decide

/-- Claim C5, witness: the concrete three-token run with one failing
token, extracted from the theorem. -/
theorem c5_token_balances_best_effort_witness :
    (get_multiple_token_balances testChain addrOne
        [addrTwo, addrThree, addrFour]).1.length = 2 :=
  c5_token_balances_best_effort.2

/-! ## Claim C10 -/

/-- Claim C10 (confirmed).  Every entry of the map returned by
`get_multiple_token_balances` is keyed by the lower-cased form of some
input address and carries the `TokenBalance` of a successful
single-token query for that address, and the map has at most as many
entries as the input list.  The closing conjunct shows the lower-cased
key for a checksum-cased input address. -/
theorem c10_token_balances_keys :
    (∀ (C : Chain) (address : String) (token_addresses : List String),
      (∀ p ∈ (get_multiple_token_balances C address token_addresses).1,
        ∃ t, t ∈ token_addresses ∧ p.1 = strLower t ∧
          (get_token_balance C address t).1 = .ok p.2) ∧
      (get_multiple_token_balances C address token_addresses).1.length ≤
        token_addresses.length) ∧
    (get_multiple_token_balances testChain addrOne [addrTwo]).1.map Prod.fst =
      ["0xfb6916095ca1df60bb79ce92ce3ea74c37c5d359"] := by
  constructor
  · intro C a ts
    constructor
    · intro p hp
      rcases gmtbAux_entries C a ts [] p hp with h | h
      · cases h
      · exact h
    · have h := gmtbAux_length C a ts []
      simpa [get_multiple_token_balances] using h
  · decide

/-- Claim C10, witness: the length bound instantiated at the concrete
three-token run. -/
theorem c10_token_balances_keys_witness :
    (get_multiple_token_balances testChain addrOne
        [addrFour, addrThree]).1.length ≤
      ([addrFour, addrThree] : List String).length :=
  (c10_token_balances_keys.1 testChain addrOne [addrFour, addrThree]).2

/-! ## Arithmetic and trace lemmas for the send operations -/

theorem pyTrunc_intCast (z : ℤ) : pyTrunc (z : ℚ) = z := by
  unfold pyTrunc
  rw [Rat.num_intCast, Rat.den_intCast]
  simp

theorem eth_to_wei_of_div (z : ℤ) :
    eth_to_wei ((z : ℚ) / 10 ^ 18) = z := by
  unfold eth_to_wei
  rw [div_mul_cancel₀ (z : ℚ) (by norm_num : (10 ^ 18 : ℚ) ≠ 0)]
  exact pyTrunc_intCast z

theorem wei_to_eth_sub (a b : Nat) :
    wei_to_eth a - wei_to_eth b = (((a : ℤ) - (b : ℤ) : ℤ) : ℚ) / 10 ^ 18 := by
  unfold wei_to_eth
  push_cast
  ring

theorem broadcasts_append (a b : List Rpc) :
    broadcasts (a ++ b) = broadcasts a ++ broadcasts b := by
  unfold broadcasts
  exact List.filterMap_append a b _

theorem broadcasts_gasPriceTrace (gpo : Option Nat) :
    broadcasts (gasPriceTrace gpo) = [] := by
  cases gpo <;> rfl

theorem send_eth_spec (C : Chain) (ka : String → Option String) (chain_id : Int)
    (private_key to_address : String) (amount_eth : ℚ) (gas_limit : Nat)
    (gas_price : Option Nat) (sender to2 : String)
    (hka : ka (norm0x private_key) = some sender)
    (hto : svc_validate_address to_address = .ok to2) :
    send_eth C ka chain_id private_key to_address amount_eth gas_limit gas_price =
      if (C.balance sender : ℤ) < eth_to_wei amount_eth then
        (.error .insufficientBalance, [.getBalance sender])
      else if (C.balance sender : ℤ) <
          eth_to_wei amount_eth + (gas_limit * gas_price.getD C.gasPrice : ℕ) then
        (.error .insufficientBalance, .getBalance sender :: gasPriceTrace gas_price)
      else if eth_to_wei amount_eth < 0 then
        (.error .serializationError,
          .getBalance sender :: gasPriceTrace gas_price ++ [.getNonce sender])
      else
        (.ok C.txHash,
          .getBalance sender :: gasPriceTrace gas_price ++
            [.getNonce sender,
              .sendRaw ⟨to2, eth_to_wei amount_eth, gas_limit,
                gas_price.getD C.gasPrice, C.nonce sender, chain_id, .plain⟩]) := by
  unfold send_eth
  dsimp only
  rw [hka, hto]
  cases gas_price <;> rfl

theorem div_E_nonpos_iff (z : ℤ) : ((z : ℚ) / 10 ^ 18 ≤ 0) ↔ z ≤ 0 := by
  rw [div_le_iff₀ (by norm_num : (0 : ℚ) < 10 ^ 18), zero_mul]
  exact_mod_cast Iff.rfl

theorem send_eth_route_max_spec (C : Chain) (ka : String → Option String)
    (chain_id : Int) (req : SendEthRequest) (s sender : String)
    (hamt : req.amount = .pstr s) (hmax : strUpper s = "MAX")
    (hka : ka (norm0x req.private_key) = some sender)
    (hsv : svc_validate_address sender = .ok sender) :
    send_eth_route C ka chain_id req =
      if wei_to_eth (C.balance sender) -
          wei_to_eth (req.gas_limit * req.gas_price.getD C.gasPrice) ≤ 0 then
        (.error .insufficientFundsForGas,
          .getBalance sender :: gasPriceTrace req.gas_price)
      else
        match send_eth C ka chain_id req.private_key req.to_address
            (wei_to_eth (C.balance sender) -
              wei_to_eth (req.gas_limit * req.gas_price.getD C.gasPrice))
            req.gas_limit req.gas_price with
        | (.error e, tr) =>
          (.error e, (.getBalance sender :: gasPriceTrace req.gas_price) ++ tr)
        | (.ok txh, tr) =>
          (.ok ⟨txh, sender, req.to_address,
              wei_to_eth (C.balance sender) -
                wei_to_eth (req.gas_limit * req.gas_price.getD C.gasPrice),
              req.gas_limit, req.gas_price.getD C.gasPrice,
              wei_to_eth (req.gas_limit * req.gas_price.getD C.gasPrice)⟩,
            (.getBalance sender :: gasPriceTrace req.gas_price) ++ tr ++
              gasPriceTrace req.gas_price) := by
  unfold send_eth_route
  rw [hka]
  dsimp only
  rw [hamt]
  dsimp only
  rw [if_pos hmax]
  unfold get_eth_balance
  rw [hsv]
  dsimp only
  cases req.gas_price <;> rfl

/-! ## Claim C1 -/

/-- Claim C1 (confirmed).  `sendNative` invoked with the case-insensitive
MAX sentinel transfers exactly `balance - gasLimit * gasPrice` wei: when
that quantity is non-positive the route fails with the
insufficient-funds-for-gas error and broadcasts nothing, and otherwise
the one broadcast transaction carries exactly that value (and the
response reports the same amount in ETH). -/
theorem c1_send_native_max (C : Chain) (ka : String → Option String)
    (chain_id : Int) (req : SendEthRequest) (s sender to2 : String)
    (hamt : req.amount = .pstr s) (hmax : strUpper s = "MAX")
    (hka : ka (norm0x req.private_key) = some sender)
    (hsv : svc_validate_address sender = .ok sender)
    (hto : svc_validate_address req.to_address = .ok to2) :
    ((C.balance sender : ℤ) -
        (req.gas_limit * req.gas_price.getD C.gasPrice : ℕ) ≤ 0 →
      (send_eth_route C ka chain_id req).1 = .error .insufficientFundsForGas ∧
      broadcasts (send_eth_route C ka chain_id req).2 = []) ∧
    (0 < (C.balance sender : ℤ) -
        (req.gas_limit * req.gas_price.getD C.gasPrice : ℕ) →
      broadcasts (send_eth_route C ka chain_id req).2 =
        [⟨to2,
          (C.balance sender : ℤ) -
            (req.gas_limit * req.gas_price.getD C.gasPrice : ℕ),
          req.gas_limit, req.gas_price.getD C.gasPrice, C.nonce sender,
          chain_id, .plain⟩] ∧
      ∃ resp, (send_eth_route C ka chain_id req).1 = .ok resp ∧
        resp.amount =
          (((C.balance sender : ℤ) -
            (req.gas_limit * req.gas_price.getD C.gasPrice : ℕ) : ℤ) : ℚ) /
            10 ^ 18) := by
  rw [send_eth_route_max_spec C ka chain_id req s sender hamt hmax hka hsv]
  rw [wei_to_eth_sub]
  constructor
  · intro h
    rw [if_pos ((div_E_nonpos_iff _).mpr h)]
    refine ⟨rfl, ?_⟩
    cases req.gas_price <;> rfl
  · intro h
    rw [if_neg (fun hc => absurd ((div_E_nonpos_iff _).mp hc) (by omega))]
    rw [send_eth_spec C ka chain_id req.private_key req.to_address _
      req.gas_limit req.gas_price sender to2 hka hto]
    rw [eth_to_wei_of_div]
    rw [if_neg (by omega), if_neg (by omega), if_neg (by omega)]
    constructor
    · cases req.gas_price <;> rfl
    · exact ⟨_, rfl, rfl⟩

/-- Claim C1, witness: the concrete MAX send against the test chain
broadcasts exactly `5 ETH - 21000 * 1 gwei` wei. -/
theorem c1_send_native_max_witness :
    broadcasts (send_eth_route testChain testKa 1
        ⟨testPk, addrThree, .pstr "max", 21000, some (10 ^ 9)⟩).2 =
      [⟨addrThree, 4999979000000000000, 21000, 10 ^ 9, 7, 1, .plain⟩] := by
  exact ((c1_send_native_max testChain testKa 1
      ⟨testPk, addrThree, .pstr "max", 21000, some (10 ^ 9)⟩ "max" addrOne addrThree
      rfl (by decide) (by decide) (by decide) (by decide)).2 (by decide)).1

/-! ## Claim C4 -/

/-- Claim C4, amended.  For a non-MAX `sendNative` the engine checks
`balance >= amount` and then `balance >= amount + gasLimit * gasPrice`,
failing with the insufficient-balance error and broadcasting nothing
when either fails; it performs no `amount >= 0` validation, so a
negative amount passes both checks whenever the gas allowance keeps the
total below the balance, and the call then fails only inside
`sign_transaction` — the RLP serializer cannot serialize the negative
`value` — after the balance and nonce fetches, with nothing broadcast
and with an error that is not the insufficient-balance one. -/
theorem c4_send_native_checks (C : Chain) (ka : String → Option String)
    (chain_id : Int) (private_key to_address : String) (amount_eth : ℚ)
    (gas_limit : Nat) (gas_price : Option Nat) (sender to2 : String)
    (hka : ka (norm0x private_key) = some sender)
    (hto : svc_validate_address to_address = .ok to2) :
    ((C.balance sender : ℤ) < eth_to_wei amount_eth →
      (send_eth C ka chain_id private_key to_address amount_eth gas_limit
          gas_price).1 = .error .insufficientBalance ∧
      broadcasts (send_eth C ka chain_id private_key to_address amount_eth
          gas_limit gas_price).2 = []) ∧
    (eth_to_wei amount_eth ≤ (C.balance sender : ℤ) →
      (C.balance sender : ℤ) <
        eth_to_wei amount_eth + (gas_limit * gas_price.getD C.gasPrice : ℕ) →
      (send_eth C ka chain_id private_key to_address amount_eth gas_limit
          gas_price).1 = .error .insufficientBalance ∧
      broadcasts (send_eth C ka chain_id private_key to_address amount_eth
          gas_limit gas_price).2 = []) ∧
    (eth_to_wei amount_eth < 0 →
      eth_to_wei amount_eth + (gas_limit * gas_price.getD C.gasPrice : ℕ) ≤
        (C.balance sender : ℤ) →
      (send_eth C ka chain_id private_key to_address amount_eth gas_limit
          gas_price).1 = .error .serializationError ∧
      (send_eth C ka chain_id private_key to_address amount_eth gas_limit
          gas_price).2 =
        .getBalance sender :: gasPriceTrace gas_price ++ [.getNonce sender] ∧
      broadcasts (send_eth C ka chain_id private_key to_address amount_eth
          gas_limit gas_price).2 = []) ∧
    (0 ≤ eth_to_wei amount_eth →
      eth_to_wei amount_eth + (gas_limit * gas_price.getD C.gasPrice : ℕ) ≤
        (C.balance sender : ℤ) →
      (send_eth C ka chain_id private_key to_address amount_eth gas_limit
          gas_price).1 = .ok C.txHash ∧
      broadcasts (send_eth C ka chain_id private_key to_address amount_eth
          gas_limit gas_price).2 =
        [⟨to2, eth_to_wei amount_eth, gas_limit, gas_price.getD C.gasPrice,
          C.nonce sender, chain_id, .plain⟩]) := by
  rw [send_eth_spec C ka chain_id private_key to_address amount_eth gas_limit
    gas_price sender to2 hka hto]
  refine ⟨?_, ?_, ?_, ?_⟩
  · intro h
    rw [if_pos h]
    exact ⟨rfl, rfl⟩
  · intro h1 h2
    rw [if_neg (not_lt.mpr h1), if_pos h2]
    refine ⟨rfl, ?_⟩
    cases gas_price <;> rfl
  · intro h1 h2
    rw [if_neg (by omega), if_neg (by omega), if_pos h1]
    refine ⟨rfl, rfl, ?_⟩
    cases gas_price <;> rfl
  · intro h1 h2
    rw [if_neg (by omega), if_neg (by omega), if_neg (by omega)]
    refine ⟨rfl, ?_⟩
    cases gas_price <;> rfl

/-- Claim C4, counterexample to the claim as stated: a negative amount
(-1 ETH) is not rejected with the insufficient-balance error — both
balance checks pass, the nonce is fetched, and the call fails with the
RLP serialization error from `sign_transaction` (nothing broadcast). -/
theorem c4_send_native_checks_counterexample :
    eth_to_wei (-1 : ℚ) < 0 ∧
    (send_eth testChain testKa 1 testPk addrThree (-1 : ℚ) 21000
        (some (10 ^ 9))).1 = .error .serializationError ∧
    (send_eth testChain testKa 1 testPk addrThree (-1 : ℚ) 21000
        (some (10 ^ 9))).1 ≠ .error .insufficientBalance ∧
    (send_eth testChain testKa 1 testPk addrThree (-1 : ℚ) 21000
        (some (10 ^ 9))).2 = [.getBalance addrOne, .getNonce addrOne] ∧
    broadcasts (send_eth testChain testKa 1 testPk addrThree (-1 : ℚ) 21000
        (some (10 ^ 9))).2 = [] := by
  exact ⟨by decide, by decide, by decide, by decide, by decide⟩

/-- Claim C4, witness: the amended checks at a concrete passing input. -/
theorem c4_send_native_checks_witness :
    (send_eth testChain testKa 1 testPk addrOne (2 : ℚ) 21000
        (some (10 ^ 9))).1 = .ok testChain.txHash :=
  ((c4_send_native_checks testChain testKa 1 testPk addrOne (2 : ℚ) 21000
      (some (10 ^ 9)) addrOne addrOne (by decide) (by decide)).2.2.2
    (by decide) (by decide)).1

theorem swap_tft_spec (C : Chain) (ka : String → Option String)
    (router : String) (sgl : Nat) (ai aom : Int) (path : List String)
    (to_address : String) (dl : Int) (fa pk : String)
    (path2 : List String) (to2 from2 : String)
    (hlen : 2 ≤ path.length)
    (hpath : ex_validate_path path = .ok path2)
    (hto : ex_validate_address to_address = .ok to2)
    (hfrom : ex_validate_address fa = .ok from2) :
    swap_exact_tokens_for_tokens C ka router sgl ai aom path to_address dl fa pk =
      match ex_validate_private_key pk with
      | .error e => (.error e, [.getNonce from2, .gasPrice])
      | .ok pk2 =>
        match ka pk2 with
        | none => (.error .signError, [.getNonce from2, .gasPrice])
        | some _ =>
          (.ok C.receipt,
            [.getNonce from2, .gasPrice,
              .sendRaw ⟨router, 0, sgl, C.gasPrice, C.nonce from2, C.chainId,
                .swapExactTokensForTokens ai aom path2 to2 dl⟩,
              .waitReceipt]) := by
  unfold swap_exact_tokens_for_tokens
  rw [if_neg (by omega : ¬path.length < 2), hpath]
  dsimp only
  rw [hto]
  dsimp only
  rw [hfrom]
  dsimp only
  rfl

theorem swap_eth_spec (C : Chain) (ka : String → Option String)
    (router : String) (sgl : Nat) (aom : Int) (path : List String)
    (to_address : String) (dl : Int) (fa pk : String) (ev : Int)
    (path2 : List String) (to2 from2 : String)
    (hpath : ex_validate_path path = .ok path2)
    (hto : ex_validate_address to_address = .ok to2)
    (hfrom : ex_validate_address fa = .ok from2) :
    swap_exact_eth_for_tokens C ka router sgl aom path to_address dl fa pk ev =
      match ka (norm0x pk) with
      | none => (.error .signError, [.getNonce from2, .gasPrice])
      | some _ =>
        (.ok C.receipt,
          [.getNonce from2, .gasPrice,
            .sendRaw ⟨router, ev, sgl, C.gasPrice, C.nonce from2, C.chainId,
              .swapExactETHForTokens aom path2 to2 dl⟩,
            .waitReceipt]) := by
  unfold swap_exact_eth_for_tokens
  rw [hpath]
  dsimp only
  rw [hto]
  dsimp only
  rw [hfrom]
  dsimp only
  rfl

theorem swap_tfe_spec (C : Chain) (ka : String → Option String)
    (router : String) (sgl : Nat) (ai aom : Int) (path : List String)
    (to_address : String) (dl : Int) (fa pk : String)
    (path2 : List String) (to2 from2 : String)
    (hpath : ex_validate_path path = .ok path2)
    (hto : ex_validate_address to_address = .ok to2)
    (hfrom : ex_validate_address fa = .ok from2) :
    swap_exact_tokens_for_eth C ka router sgl ai aom path to_address dl fa pk =
      match ka (norm0x pk) with
      | none => (.error .signError, [.getNonce from2, .gasPrice])
      | some _ =>
        (.ok C.receipt,
          [.getNonce from2, .gasPrice,
            .sendRaw ⟨router, 0, sgl, C.gasPrice, C.nonce from2, C.chainId,
              .swapExactTokensForETH ai aom path2 to2 dl⟩,
            .waitReceipt]) := by
  unfold swap_exact_tokens_for_eth
  rw [hpath]
  dsimp only
  rw [hto]
  dsimp only
  rw [hfrom]
  dsimp only
  rfl

/-! ## Claim C2 -/

/-- Claim C2, amended.  Only `swap_exact_tokens_for_tokens` rejects a
path of fewer than two addresses, failing with `InvalidSwapPath` before
any RPC call (empty trace).  `swap_exact_eth_for_tokens` and
`swap_exact_tokens_for_eth` perform no path-length validation at all:
with any validating path — including the empty one — they proceed to
fetch the nonce and gas price, broadcast, and wait for the receipt. -/
theorem c2_swap_path_validation :
    (∀ (C : Chain) (ka : String → Option String) (router : String) (sgl : Nat)
        (ai aom : Int) (path : List String) (to_address : String) (dl : Int)
        (fa pk : String),
      path.length < 2 →
      swap_exact_tokens_for_tokens C ka router sgl ai aom path to_address dl
          fa pk =
        (.error .invalidSwapPath, [])) ∧
    (∀ (C : Chain) (ka : String → Option String) (router : String) (sgl : Nat)
        (aom : Int) (path : List String) (to_address : String) (dl : Int)
        (fa pk : String) (ev : Int) (path2 : List String)
        (to2 from2 addr : String),
      ex_validate_path path = .ok path2 →
      ex_validate_address to_address = .ok to2 →
      ex_validate_address fa = .ok from2 →
      ka (norm0x pk) = some addr →
      swap_exact_eth_for_tokens C ka router sgl aom path to_address dl fa pk
          ev =
        (.ok C.receipt,
          [.getNonce from2, .gasPrice,
            .sendRaw ⟨router, ev, sgl, C.gasPrice, C.nonce from2, C.chainId,
              .swapExactETHForTokens aom path2 to2 dl⟩,
            .waitReceipt])) ∧
    (∀ (C : Chain) (ka : String → Option String) (router : String) (sgl : Nat)
        (ai aom : Int) (path : List String) (to_address : String) (dl : Int)
        (fa pk : String) (path2 : List String) (to2 from2 addr : String),
      ex_validate_path path = .ok path2 →
      ex_validate_address to_address = .ok to2 →
      ex_validate_address fa = .ok from2 →
      ka (norm0x pk) = some addr →
      swap_exact_tokens_for_eth C ka router sgl ai aom path to_address dl fa
          pk =
        (.ok C.receipt,
          [.getNonce from2, .gasPrice,
            .sendRaw ⟨router, 0, sgl, C.gasPrice, C.nonce from2, C.chainId,
              .swapExactTokensForETH ai aom path2 to2 dl⟩,
            .waitReceipt])) := by
  refine ⟨?_, ?_, ?_⟩
  · intro C ka router sgl ai aom path to_address dl fa pk h
    unfold swap_exact_tokens_for_tokens
    rw [if_pos h]
  · intro C ka router sgl aom path to_address dl fa pk ev path2 to2 from2 addr
      hpath hto hfrom hka2
    rw [swap_eth_spec C ka router sgl aom path to_address dl fa pk ev path2
      to2 from2 hpath hto hfrom, hka2]
  · intro C ka router sgl ai aom path to_address dl fa pk path2 to2 from2 addr
      hpath hto hfrom hka2
    rw [swap_tfe_spec C ka router sgl ai aom path to_address dl fa pk path2
      to2 from2 hpath hto hfrom, hka2]

/-- Claim C2, witness: the ETH-for-tokens swap with an *empty* path
still builds, signs and broadcasts a transaction. -/
theorem c2_swap_path_validation_witness :
    swap_exact_eth_for_tokens testChain testKa addrOne 300000 0 []
        addrThree 1999 addrOne testPk 5 =
      (.ok testChain.receipt,
        [.getNonce addrOne, .gasPrice,
          .sendRaw ⟨addrOne, 5, 300000, testChain.gasPrice, 7, 50312,
            .swapExactETHForTokens 0 [] addrThree 1999⟩,
          .waitReceipt]) := by
  exact c2_swap_path_validation.2.1 testChain testKa addrOne 300000 0 []
    addrThree 1999 addrOne testPk 5 [] addrThree addrOne addrOne
    (by decide) (by decide) (by decide) (by decide)

/-- Claim C2, counterexample to the claim as stated: swapping ETH for
tokens with a path of length 0 does not fail with `InvalidSwapPath`, and
its RPC trace is non-empty. -/
theorem c2_swap_path_validation_counterexample :
    (swap_exact_eth_for_tokens testChain testKa addrOne 300000 0 []
        addrThree 1999 addrOne testPk 5).1 ≠ .error .invalidSwapPath ∧
    (swap_exact_eth_for_tokens testChain testKa addrOne 300000 0 []
        addrThree 1999 addrOne testPk 5).2 ≠ [] := by
  exact ⟨by decide, by decide⟩

/-! ## Claim C6 -/

/-- Claim C6, amended.  In `swap_exact_tokens_for_tokens`, the path and
address validation errors are raised before any network call (empty RPC
trace), but the private-key validation runs only *after* the transaction
is built: its rejection surfaces with the nonce fetch and gas-price
fetch already on the trace. -/
theorem c6_validation_order :
    (∀ (C : Chain) (ka : String → Option String) (router : String) (sgl : Nat)
        (ai aom : Int) (path : List String) (to_address : String) (dl : Int)
        (fa pk : String),
      path.length < 2 →
      swap_exact_tokens_for_tokens C ka router sgl ai aom path to_address dl
          fa pk =
        (.error .invalidSwapPath, [])) ∧
    (∀ (C : Chain) (ka : String → Option String) (router : String) (sgl : Nat)
        (ai aom : Int) (path : List String) (to_address : String) (dl : Int)
        (fa pk : String) (e : Err),
      2 ≤ path.length →
      ex_validate_path path = .error e →
      swap_exact_tokens_for_tokens C ka router sgl ai aom path to_address dl
          fa pk =
        (.error e, [])) ∧
    (∀ (C : Chain) (ka : String → Option String) (router : String) (sgl : Nat)
        (ai aom : Int) (path : List String) (to_address : String) (dl : Int)
        (fa pk : String) (path2 : List String) (e : Err),
      2 ≤ path.length →
      ex_validate_path path = .ok path2 →
      ex_validate_address to_address = .error e →
      swap_exact_tokens_for_tokens C ka router sgl ai aom path to_address dl
          fa pk =
        (.error e, [])) ∧
    (∀ (C : Chain) (ka : String → Option String) (router : String) (sgl : Nat)
        (ai aom : Int) (path : List String) (to_address : String) (dl : Int)
        (fa pk : String) (path2 : List String) (to2 : String) (e : Err),
      2 ≤ path.length →
      ex_validate_path path = .ok path2 →
      ex_validate_address to_address = .ok to2 →
      ex_validate_address fa = .error e →
      swap_exact_tokens_for_tokens C ka router sgl ai aom path to_address dl
          fa pk =
        (.error e, [])) ∧
    (∀ (C : Chain) (ka : String → Option String) (router : String) (sgl : Nat)
        (ai aom : Int) (path : List String) (to_address : String) (dl : Int)
        (fa pk : String) (path2 : List String) (to2 from2 : String) (e : Err),
      2 ≤ path.length →
      ex_validate_path path = .ok path2 →
      ex_validate_address to_address = .ok to2 →
      ex_validate_address fa = .ok from2 →
      ex_validate_private_key pk = .error e →
      swap_exact_tokens_for_tokens C ka router sgl ai aom path to_address dl
          fa pk =
        (.error e, [.getNonce from2, .gasPrice])) := by
  refine ⟨?_, ?_, ?_, ?_, ?_⟩
  · intro C ka router sgl ai aom path to_address dl fa pk h
    unfold swap_exact_tokens_for_tokens
    rw [if_pos h]
  · intro C ka router sgl ai aom path to_address dl fa pk e hlen hpath
    unfold swap_exact_tokens_for_tokens
    rw [if_neg (by omega : ¬path.length < 2), hpath]
  · intro C ka router sgl ai aom path to_address dl fa pk path2 e hlen hpath
      hto
    unfold swap_exact_tokens_for_tokens
    rw [if_neg (by omega : ¬path.length < 2), hpath]
    dsimp only
    rw [hto]
  · intro C ka router sgl ai aom path to_address dl fa pk path2 to2 e hlen
      hpath hto hfrom
    unfold swap_exact_tokens_for_tokens
    rw [if_neg (by omega : ¬path.length < 2), hpath]
    dsimp only
    rw [hto]
    dsimp only
    rw [hfrom]
  · intro C ka router sgl ai aom path to_address dl fa pk path2 to2 from2 e
      hlen hpath hto hfrom hpk
    rw [swap_tft_spec C ka router sgl ai aom path to_address dl fa pk path2
      to2 from2 hlen hpath hto hfrom, hpk]

/-- Claim C6, witness: the invalid-key rejection in
`swap_exact_tokens_for_tokens` happens with the nonce and gas-price
calls already made. -/
theorem c6_validation_order_witness :
    swap_exact_tokens_for_tokens testChain testKa addrOne 300000 1 0
        [addrOne, addrTwo] addrThree 1999 addrFour "" =
      (.error .invalidKey, [.getNonce addrFour, .gasPrice]) := by
  exact c6_validation_order.2.2.2.2 testChain testKa addrOne 300000 1 0
    [addrOne, addrTwo] addrThree 1999 addrFour "" [addrOne, addrTwo] addrThree
    addrFour .invalidKey (by decide) (by decide) (by decide) (by decide)
    (by decide)

/-- Claim C6, counterexample to the claim as stated: a malformed private
key in `swap_exact_tokens_for_tokens` is rejected only after two RPC
calls (nonce fetch and gas-price fetch) — not before any network
call. -/
theorem c6_validation_order_counterexample :
    (swap_exact_tokens_for_tokens testChain testKa addrOne 300000 1 0
        [addrOne, addrTwo] addrThree 1999 addrFour "zz").1 =
      .error .invalidKey ∧
    (swap_exact_tokens_for_tokens testChain testKa addrOne 300000 1 0
        [addrOne, addrTwo] addrThree 1999 addrFour "zz").2 =
      [.getNonce addrFour, .gasPrice] := by
  exact ⟨by decide, by decide⟩

end AutoSomnia
